import Mathlib

/-!
Verification of the aily-blockly-offline-service orchestration script
(`cli.js`, `start-verdaccio.js`) against its natural-language specification.

The relevant routines are shallowly embedded as executable Lean functions:
network and filesystem effects are made explicit (probe outcomes are an
oracle `Nat -> ProbeReply`, the filesystem is a small explicit state, and
subprocess invocations are recorded as values in a trace).
-/

namespace AilyOffline

/-! ## Readiness poller (`waitForVerdaccio`, cli.js lines 28-65)

The JS code issues an HTTP GET to the registry ping endpoint each attempt.  An attempt can
observe a response with some status code, a connection error, or a
per-attempt timeout.  The code resolves only when `res.statusCode === 200`;
every other observation calls `retry()`, which increments `retries` and
rejects once `retries >= maxRetries`. -/

/-- Outcome of a single health-check attempt, as observed by the callback
structure in `waitForVerdaccio`. -/
inductive ProbeReply where
  | response (statusCode : Nat)
  | connError
  | attemptTimeout
deriving DecidableEq, Repr

/-- Embeds the readiness test of cli.js line 35: `res.statusCode === 200`.
Connection errors and per-attempt timeouts call `retry()` directly. -/
def ProbeReply.isReady : ProbeReply → Bool
  | .response code => code == 200
  | .connError => false
  | .attemptTimeout => false

/-- Result of the polling loop, carrying the number of attempts issued. -/
inductive PollResult where
  | resolved (attempts : Nat)
  | timedOut (attempts : Nat)
deriving DecidableEq, Repr

/-- Number of attempts issued by the loop, whichever way it ended. -/
def PollResult.attempts : PollResult → Nat
  | .resolved n => n
  | .timedOut n => n

/-- The `check`/`retry` recursion of cli.js lines 32-63.  `retries` is the
counter of failed attempts so far; the attempt being issued is number
`retries + 1`.  `probe i` is the observation of the i-th attempt
(1-indexed).  On failure the counter becomes `retries + 1` and the loop
rejects exactly when the new counter reaches `maxRetries`
(`retries >= maxRetries` in the source). -/
def waitLoop (probe : Nat → ProbeReply) (maxRetries : Nat) (retries : Nat) : PollResult :=
  if (probe (retries + 1)).isReady then
    .resolved (retries + 1)
  else if maxRetries ≤ retries + 1 then
    .timedOut (retries + 1)
  else
    waitLoop probe maxRetries (retries + 1)
termination_by maxRetries - retries
decreasing_by omega

/-- `waitForVerdaccio(maxRetries, interval)` from cli.js lines 28-65, with
the probe behaviour made explicit.  The interval only schedules wall-clock
delays and does not affect the attempt/verdict structure. -/
def waitForVerdaccio (probe : Nat → ProbeReply) (maxRetries : Nat) : PollResult :=
  waitLoop probe maxRetries 0

theorem waitLoop_timeout (probe : Nat → ProbeReply) (maxRetries : Nat)
    (hfail : ∀ i, (probe i).isReady = false) :
    ∀ fuel retries, maxRetries - retries ≤ fuel → retries < maxRetries →
      waitLoop probe maxRetries retries = .timedOut maxRetries := by
  intro fuel
  induction fuel with
  | zero => intro retries h1 h2; omega
  | succ n ih =>
    intro retries h1 h2
    rw [waitLoop]
    rw [hfail (retries + 1)]
    simp only [Bool.false_eq_true, if_false]
    by_cases hstop : maxRetries ≤ retries + 1
    · have : retries + 1 = maxRetries := by omega
      rw [if_pos hstop, this]
    · rw [if_neg hstop]
      exact ih (retries + 1) (by omega) (by omega)

theorem waitLoop_success (probe : Nat → ProbeReply) (maxRetries N : Nat)
    (hN : (probe N).isReady = true)
    (hbefore : ∀ i, 1 ≤ i → i < N → (probe i).isReady = false)
    (hhi : N ≤ maxRetries) :
    ∀ fuel retries, N - retries ≤ fuel → retries < N →
      waitLoop probe maxRetries retries = .resolved N := by
  intro fuel
  induction fuel with
  | zero => intro retries h1 h2; omega
  | succ n ih =>
    intro retries h1 h2
    rw [waitLoop]
    by_cases hhit : retries + 1 = N
    · rw [hhit, hN]
      simp
    · have hlt : retries + 1 < N := by omega
      rw [hbefore (retries + 1) (by omega) hlt]
      simp only [Bool.false_eq_true, if_false]
      rw [if_neg (by omega : ¬ maxRetries ≤ retries + 1)]
      exact ih (retries + 1) (by omega) (by omega)

theorem waitLoop_attempts_le (probe : Nat → ProbeReply) (maxRetries : Nat) :
    ∀ fuel retries, maxRetries - retries ≤ fuel → retries < maxRetries →
      (waitLoop probe maxRetries retries).attempts ≤ maxRetries := by
  intro fuel
  induction fuel with
  | zero => intro retries h1 h2; omega
  | succ n ih =>
    intro retries h1 h2
    rw [waitLoop]
    by_cases hready : (probe (retries + 1)).isReady = true
    · rw [hready]
      simpa [PollResult.attempts] using by omega
    · rw [Bool.not_eq_true] at hready
      rw [hready]
      simp only [Bool.false_eq_true, if_false]
      by_cases hstop : maxRetries ≤ retries + 1
      · rw [if_pos hstop]
        simpa [PollResult.attempts] using by omega
      · rw [if_neg hstop]
        exact ih (retries + 1) (by omega) (by omega)

/-- Claim C2: with a positive retry budget, `waitForVerdaccio` resolves
after exactly N attempts when the probe first succeeds on the Nth attempt
with N below the budget, rejects with the timeout error after exactly
`maxRetries` attempts when no attempt ever succeeds, and in every case
issues at most `maxRetries` attempts. -/
theorem waitForVerdaccio_retry_budget (probe : Nat → ProbeReply) (maxRetries N : Nat)
    (hmax : 1 ≤ maxRetries) :
    ((∀ i, 1 ≤ i → i < N → (probe i).isReady = false) → (probe N).isReady = true →
      1 ≤ N → N < maxRetries →
      waitForVerdaccio probe maxRetries = .resolved N) ∧
    ((∀ i, (probe i).isReady = false) →
      waitForVerdaccio probe maxRetries = .timedOut maxRetries) ∧
    (waitForVerdaccio probe maxRetries).attempts ≤ maxRetries := by
  refine ⟨fun hbefore hN h1 hlt => ?_, fun hfail => ?_, ?_⟩
  · exact waitLoop_success probe maxRetries N hN hbefore (by omega) N 0 (by omega) (by omega)
  · exact waitLoop_timeout probe maxRetries hfail maxRetries 0 (by omega) (by omega)
  · exact waitLoop_attempts_le probe maxRetries maxRetries 0 (by omega) (by omega)

/-- Probe used in the C2 witness: fails on attempt 1, succeeds on attempt 2. -/
def probeSucceedsAt2 : Nat → ProbeReply :=
  fun i => if i = 2 then .response 200 else .connError

theorem waitForVerdaccio_retry_budget_witness :
    waitForVerdaccio probeSucceedsAt2 5 = .resolved 2 :=
  (waitForVerdaccio_retry_budget probeSucceedsAt2 5 2 (by decide)).1
    (by
      intro i h1 h2
      have : i = 1 := by omega
      subst this
      decide)
    (by decide) (by decide) (by decide)

/-- Claim C7 counterexample: an attempt observing HTTP 201 (a 2xx status)
does not resolve the poller.  With a probe that answers 201 on every
attempt and a budget of 2, the poller times out after 2 attempts instead
of resolving on attempt 1 as the claim would require. -/
theorem waitForVerdaccio_201_not_ready :
    waitForVerdaccio (fun _ => ProbeReply.response 201) 2 = .timedOut 2 ∧
    (ProbeReply.response 201).isReady = false := by
  constructor
  · rw [waitForVerdaccio, waitLoop]
    simp only [ProbeReply.isReady]
    rw [waitLoop]
    decide
  · decide

/-- Claim C7 (amended): the poller treats exactly status 200 as ready; a
response with any other status code, including every other 2xx code, is
treated as not-yet, so a probe that only ever answers non-200 statuses
exhausts the retry budget and times out. -/
theorem waitForVerdaccio_only_200_ready (maxRetries : Nat) (codes : Nat → Nat)
    (hmax : 1 ≤ maxRetries) (hcodes : ∀ i, codes i ≠ 200) :
    waitForVerdaccio (fun i => ProbeReply.response (codes i)) maxRetries
      = .timedOut maxRetries ∧
    (ProbeReply.response 200).isReady = true := by
  constructor
  · refine waitLoop_timeout _ maxRetries ?_ maxRetries 0 (by omega) (by omega)
    intro i
    simp [ProbeReply.isReady, hcodes i]
  · decide

theorem waitForVerdaccio_only_200_ready_witness :
    waitForVerdaccio (fun _ => ProbeReply.response 204) 3 = .timedOut 3 :=
  (waitForVerdaccio_only_200_ready 3 (fun _ => 204) (by decide) (fun _ => by norm_num)).1

/-! ## Pid-file bookkeeping (`getPid` cli.js lines 284-294, `getStaticPid`
lines 367-380) and the start guard (`startVerdaccio` lines 296-302,
`startStaticServer` lines 385-391)

The pid file either does not exist, exists with content that does not
parse to a process id (`parseInt` yields NaN, in which case
`isProcessRunning`/`process.kill` fails and the file is unlinked), or
exists naming a process id.  Liveness of a pid is an oracle. -/

/-- State visible to the pid queries: the pid file content and the OS
process table.  `pidFile = none` means the file does not exist;
`some none` means the file exists but its content does not parse to a
process id; `some (some p)` means it records process id `p`. -/
structure PidState where
  pidFile : Option (Option Nat)
  alive : Nat → Bool

/-- `getPid` (and the structurally identical `getStaticPid`): returns a pid
only when the file exists and the recorded process answers the no-op
signal; when the file exists but the process is not alive (or the content
is unparsable) the file is unlinked as a side effect. -/
def getPid (s : PidState) : Option Nat × PidState :=
  match s.pidFile with
  | none => (none, s)
  | some none => (none, { s with pidFile := none })
  | some (some p) =>
    if s.alive p then (some p, s)
    else (none, { s with pidFile := none })

/-- Claim C6: a pid is returned only if the file exists and the recorded
process is alive; a file recording a dead (or unparsable) pid is deleted
by the query; after any query the pid file exists only if it names a live
process. -/
theorem getPid_self_healing (s : PidState) :
    (∀ p, (getPid s).1 = some p → s.pidFile = some (some p) ∧ s.alive p = true) ∧
    (∀ c, s.pidFile = some c → (∀ p, c = some p → s.alive p = false) →
      ((getPid s).2).pidFile = none) ∧
    (∀ c, ((getPid s).2).pidFile = some c → ∃ p, c = some p ∧ s.alive p = true) := by
  refine ⟨?_, ?_, ?_⟩
  · intro p hp
    match h : s.pidFile with
    | none => simp [getPid, h] at hp
    | some none => simp [getPid, h] at hp
    | some (some q) =>
      by_cases halive : s.alive q = true
      · simp [getPid, h, halive] at hp
        subst hp
        exact ⟨rfl, halive⟩
      · rw [Bool.not_eq_true] at halive
        simp [getPid, h, halive] at hp
  · intro c hc hdead
    match h : s.pidFile with
    | none => simp [h] at hc
    | some none => simp [getPid, h]
    | some (some q) =>
      rw [h] at hc
      cases hc
      have : s.alive q = false := hdead q rfl
      simp [getPid, h, this]
  · intro c hc
    match h : s.pidFile with
    | none => simp [getPid, h] at hc
    | some none => simp [getPid, h] at hc
    | some (some q) =>
      by_cases halive : s.alive q = true
      · simp [getPid, h, halive] at hc
        exact ⟨q, hc.symm, halive⟩
      · rw [Bool.not_eq_true] at halive
        simp [getPid, h, halive] at hc

/-- Stale state for the C6 witness: the file records pid 3 but no process
is alive. -/
def stalePidState : PidState :=
  ⟨some (some 3), fun _ => false⟩

theorem getPid_self_healing_witness :
    ((getPid stalePidState).2).pidFile = none :=
  (getPid_self_healing stalePidState).2.1 (some 3) rfl (fun _ _ => rfl)

/-- Outcome of one `start` invocation: the new state, whether a new child
process was spawned, and whether the call reported the service as already
running. -/
structure StartOutcome where
  state : PidState
  spawned : Bool
  alreadyRunning : Bool

/-- The guard shared by `startVerdaccio` and `startStaticServer`: query the
pid file first; if it resolves to a live pid, report already-running and
spawn nothing.  Otherwise spawn a child with fresh pid `newPid` (now
alive) and, when pid discovery succeeds (`recordPid`, always true for the
static server, true for the registry when the process-table query finds
the child), persist it to the pid file. -/
def startService (newPid : Nat) (recordPid : Bool) (s : PidState) : StartOutcome :=
  match getPid s with
  | (some _, s1) => ⟨s1, false, true⟩
  | (none, s1) =>
    ⟨⟨if recordPid then some (some newPid) else s1.pidFile,
      fun q => q == newPid || s1.alive q⟩, true, false⟩

/-- Claim C5: whenever the pid file resolves to a live process, `start`
reports already-running and spawns nothing; consequently two consecutive
`start` calls where the first spawned (and recorded its pid) yield exactly
one spawn in total, the second call reporting already-running. -/
theorem startService_idempotent (s : PidState) (p1 p2 : Nat) :
    ((getPid s).1.isSome = true →
      (startService p1 true s).spawned = false ∧
      (startService p1 true s).alreadyRunning = true) ∧
    ((startService p1 true s).spawned = true →
      (startService p2 true (startService p1 true s).state).spawned = false ∧
      (startService p2 true (startService p1 true s).state).alreadyRunning = true) := by
  constructor
  · intro hsome
    match h : getPid s with
    | (some q, s1) => simp [startService, h]
    | (none, s1) => rw [h] at hsome; simp at hsome
  · intro hspawned
    match h : getPid s with
    | (some q, s1) => simp [startService, h] at hspawned
    | (none, s1) =>
      simp only [startService, h]
      simp [getPid]

/-- Never-started state for the C5 witness. -/
def freshPidState : PidState :=
  ⟨none, fun _ => false⟩

theorem startService_idempotent_witness :
    (startService 9 true (startService 7 true freshPidState).state).spawned = false ∧
    (startService 9 true (startService 7 true freshPidState).state).alreadyRunning = true :=
  (startService_idempotent freshPidState 7 9).2 rfl

/-! ## Archive download (`downloadFile`, cli.js lines 587-636)

The response observed for a URL is an oracle: a status code together with
an optional Location header, a connection error, or the 60-second request
timeout.  The destination file is explicit state (`none` when absent,
`some contents` when present); the write stream of the source is opened
only in the branch where status 200 was observed, which the model mirrors
by updating the destination only there. -/

/-- Observation of one HTTP GET in `downloadFile`. -/
inductive HttpReply where
  | response (statusCode : Nat) (location : Option String)
  | netError
  | reqTimeout
deriving DecidableEq, Repr

/-- How one `downloadFile` invocation settled. -/
inductive DlOutcome where
  | ok
  | tooManyRedirects
  | httpFailure (statusCode : Nat)
  | netFailure
  | timedOut
deriving DecidableEq, Repr

/-- `downloadFile(fileUrl, destPath, maxRedirects)`: follow 3xx responses
carrying a Location header while the redirect budget lasts, reject on any
other non-200 status, and only on a 200 response open the write stream
and store the body.  `net` observes the response per URL and `body` the
payload per URL; the final component is the destination file state. -/
def downloadFile (net : String → HttpReply) (body : String → String) :
    String → Nat → Option String → DlOutcome × Option String
  | _, 0, destFile => (.tooManyRedirects, destFile)
  | fileUrl, m + 1, destFile =>
    match net fileUrl with
    | .response code (some loc) =>
      if 300 ≤ code ∧ code < 400 then
        downloadFile net body loc m destFile
      else if code ≠ 200 then (.httpFailure code, destFile)
      else (.ok, some (body fileUrl))
    | .response code none =>
      if code ≠ 200 then (.httpFailure code, destFile)
      else (.ok, some (body fileUrl))
    | .netError => (.netFailure, destFile)
    | .reqTimeout => (.timedOut, destFile)

/-- Claim C10: a response whose status is not 200 and which is not a 3xx
redirect carrying a Location header makes `downloadFile` reject with the
download-failed error, leaving the destination file exactly as it was. -/
theorem downloadFile_non200_no_write (net : String → HttpReply) (body : String → String)
    (fileUrl : String) (m : Nat) (destFile : Option String)
    (code : Nat) (loc : Option String)
    (hresp : net fileUrl = .response code loc)
    (hnored : ¬ (300 ≤ code ∧ code < 400 ∧ loc.isSome = true))
    (hcode : code ≠ 200) (hm : 0 < m) :
    downloadFile net body fileUrl m destFile = (.httpFailure code, destFile) := by
  match m, hm with
  | n + 1, _ =>
    match loc, hnored with
    | some l, hnored =>
      rw [downloadFile, hresp]
      have hr : ¬ (300 ≤ code ∧ code < 400) := by
        intro hand
        exact hnored ⟨hand.1, hand.2, rfl⟩
      simp [hr, hcode]
    | none, _ =>
      rw [downloadFile, hresp]
      simp [hcode]

/-- Network for the C10 witness: every URL answers 404 with no Location. -/
def net404 : String → HttpReply :=
  fun _ => .response 404 none

theorem downloadFile_non200_no_write_witness :
    downloadFile net404 (fun _ => "") "http://x/a.zip" 5 none = (.httpFailure 404, none) :=
  downloadFile_non200_no_write net404 (fun _ => "") "http://x/a.zip" 5 none 404 none
    rfl (by decide) (by decide) (by decide)

/-! ## Repository mirroring (`downloadAndExtractRepo`, cli.js lines 664-723)

The on-disk state relevant to one mirror run is the temp archive file
`<name>.zip`, the temp-extraction directory `<name>-temp`, and the
canonical directory `repos/<name>`.  Directory contents are trees of
named entries.  The environment says whether the download, the
extraction and the relocation steps succeed and what the extraction
produces; every failure is routed through the single catch block of the
source, which removes the zip file and the temp directory. -/

/-- A directory entry: a plain file or a directory with named children. -/
inductive FsNode where
  | file
  | dir (entries : List (String × FsNode))

/-- Filesystem state of one mirror run.  `zip` is existence of the temp
archive; `temp` and `repo` are `none` when absent and carry the top-level
entries when present. -/
structure MirrorFs where
  zip : Bool
  temp : Option (List (String × FsNode))
  repo : Option (List (String × FsNode))

/-- Environment of one mirror run: which steps succeed, and the top-level
entries the extraction produces in the temp directory. -/
structure MirrorEnv where
  downloadOk : Bool
  extractOk : Bool
  extracted : List (String × FsNode)
  moveOk : Bool

/-- The catch/cleanup block of cli.js lines 712-722 and step 6 of lines
702-709: unlink the zip file and remove the temp-extraction directory if
they exist. -/
def cleanupTemp (s : MirrorFs) : MirrorFs :=
  { s with zip := false, temp := none }

/-- `downloadAndExtractRepo(repo, reposDir)`: download the archive, delete
the old canonical directory and any leftover temp directory, extract into
the temp directory, relocate (stripping a single top-level wrapper
directory; when the single entry is not a directory the source moves
nothing), then clean up; any thrown step lands in the catch block, which
also cleans up.  Returns whether the run reported success, with the final
filesystem state. -/
def downloadAndExtractRepo (env : MirrorEnv) (s : MirrorFs) : Bool × MirrorFs :=
  if env.downloadOk = false then
    (false, cleanupTemp s)
  else
    let s1 : MirrorFs := { s with zip := true }
    let s2 : MirrorFs := { s1 with repo := none }
    let s3 : MirrorFs := { s2 with temp := none }
    if env.extractOk = false then
      (false, cleanupTemp { s3 with temp := some [] })
    else
      let s4 : MirrorFs := { s3 with temp := some env.extracted }
      if env.moveOk = false then
        (false, cleanupTemp s4)
      else
        let s5 : MirrorFs :=
          match env.extracted with
          | [(_, FsNode.dir inner)] => { s4 with temp := some [], repo := some inner }
          | [(_, FsNode.file)] => s4
          | items => { s4 with temp := none, repo := some items }
        (true, cleanupTemp s5)

/-- Claim C4: whatever the outcome, after `downloadAndExtractRepo` neither
the temp archive file nor the temp-extraction directory exists; and when
the download itself fails the canonical directory is exactly what it was
before the call. -/
theorem downloadAndExtractRepo_no_temp_leak (env : MirrorEnv) (s : MirrorFs) :
    ((downloadAndExtractRepo env s).2).zip = false ∧
    ((downloadAndExtractRepo env s).2).temp = none ∧
    (env.downloadOk = false → ((downloadAndExtractRepo env s).2).repo = s.repo) := by
  match env with
  | ⟨dl, ex, items, mv⟩ =>
    cases dl
    · simp [downloadAndExtractRepo, cleanupTemp]
    · cases ex
      · simp [downloadAndExtractRepo, cleanupTemp]
      · cases mv
        · simp [downloadAndExtractRepo, cleanupTemp]
        · match items with
          | [] => simp [downloadAndExtractRepo, cleanupTemp]
          | [(nm, FsNode.dir inner)] => simp [downloadAndExtractRepo, cleanupTemp]
          | [(nm, FsNode.file)] => simp [downloadAndExtractRepo, cleanupTemp]
          | a :: b :: rest =>
            match a with
            | (nm, FsNode.dir inner) => simp [downloadAndExtractRepo, cleanupTemp]
            | (nm, FsNode.file) => simp [downloadAndExtractRepo, cleanupTemp]

/-- Mirror state for the C4 witness: a previously mirrored canonical
directory is present and a stale temp directory and archive are leaked. -/
def leakedMirrorFs : MirrorFs :=
  ⟨true, some [("stale", FsNode.file)], some [("kept", FsNode.file)]⟩

/-- Environment for the C4 witness: the download fails (unreachable
remote). -/
def unreachableEnv : MirrorEnv :=
  ⟨false, true, [], true⟩

theorem downloadAndExtractRepo_no_temp_leak_witness :
    ((downloadAndExtractRepo unreachableEnv leakedMirrorFs).2).zip = false ∧
    ((downloadAndExtractRepo unreachableEnv leakedMirrorFs).2).temp = none ∧
    ((downloadAndExtractRepo unreachableEnv leakedMirrorFs).2).repo
      = leakedMirrorFs.repo := by
  have h := downloadAndExtractRepo_no_temp_leak unreachableEnv leakedMirrorFs
  exact ⟨h.1, h.2.1, h.2.2 rfl⟩

/-- Claim C3 evaluated at the failing input (code bug): when extraction
yields exactly one top-level entry and it is a plain file, the source
takes the single-entry branch, finds it is not a directory, and moves
nothing: the temp directory (holding the only copy of the content) is
then removed by the cleanup step, no canonical directory is created, and
the function still returns success.  The claim requires the whole
temp-extraction directory to be renamed into place in this case. -/
theorem downloadAndExtractRepo_single_file_entry_lost :
    downloadAndExtractRepo ⟨true, true, [("onlyfile", FsNode.file)], true⟩
        ⟨false, none, none⟩
      = (true, ⟨false, none, none⟩) := rfl

/-- For contrast with C3: with a single top-level directory entry the
wrapper is stripped, so the canonical directory receives the inner
entries and does not contain the wrapper folder; and with several
top-level entries the whole extraction is moved into place. -/
theorem downloadAndExtractRepo_wrapper_stripped
    (s : MirrorFs) (nm : String) (inner rest : List (String × FsNode))
    (a b : String × FsNode) :
    (downloadAndExtractRepo ⟨true, true, [(nm, FsNode.dir inner)], true⟩ s).2.repo
      = some inner ∧
    (downloadAndExtractRepo ⟨true, true, a :: b :: rest, true⟩ s).2.repo
      = some (a :: b :: rest) := by
  constructor
  · simp [downloadAndExtractRepo, cleanupTemp]
  · match a with
    | (nm2, FsNode.dir inner2) => simp [downloadAndExtractRepo, cleanupTemp]
    | (nm2, FsNode.file) => simp [downloadAndExtractRepo, cleanupTemp]

/-! ## Package publisher (`runUpdate` publish loop, cli.js lines 827-862)

For each immediate subdirectory of a mirrored repository the loop checks
that the entry is a directory, is not hidden and is not `node_modules`;
when it holds a `package.json` it parses name and version, runs
`npm unpublish name@version --force` whenever both parsed, and then runs
`npm publish` unconditionally.  The loop never queries the registry for
existence and takes no force flag. -/

/-- Byte-wise string prefix test, embedding `String.prototype.startsWith`
of the source. -/
def strStartsWith (s pre : String) : Bool :=
  pre.data.isPrefixOf s.data

/-- What reading `package.json` in a subdirectory can yield: no file, a
file that fails to parse, or a parse with optional name and version
fields.  `some s` encodes a field that is truthy in the guard of cli.js
line 845 (present and non-empty); an absent, empty or otherwise falsy
field is encoded as `none`. -/
inductive PkgManifest where
  | absent
  | malformed
  | parsed (pkgName : Option String) (pkgVersion : Option String)
deriving DecidableEq, Repr

/-- One immediate entry of the mirrored repository directory. -/
structure SubDir where
  entryName : String
  isDir : Bool
  manifest : PkgManifest
deriving DecidableEq, Repr

/-- A subprocess invocation recorded by the publish loop. -/
inductive NpmCmd where
  | unpub (pkgName pkgVersion : String)
  | pub (dirName : String)
deriving DecidableEq, Repr

/-- The filter of cli.js line 833: directories only, no hidden entries, no
`node_modules`. -/
def qualifies (d : SubDir) : Bool :=
  d.isDir && !(strStartsWith d.entryName ".") && d.entryName ≠ "node_modules"

/-- Subprocess calls issued for one subdirectory (cli.js lines 829-861). -/
def publishStep (d : SubDir) : List NpmCmd :=
  if qualifies d then
    match d.manifest with
    | .absent => []
    | .malformed => [.pub d.entryName]
    | .parsed nm ver =>
      match nm, ver with
      | some n, some v => [.unpub n v, .pub d.entryName]
      | _, _ => [.pub d.entryName]
  else []

/-- Subprocess calls issued by the whole publish loop over the immediate
entries of a mirrored repository. -/
def publishRepo (ds : List SubDir) : List NpmCmd :=
  (ds.map publishStep).flatten

/-- Claim C1 counterexample: a subdirectory `a` with manifest
name `a`, version `1.0.0` — the scenario where `a@1.0.0` is already in
the registry and force-mode is off.  The loop consults neither the
registry nor any force flag, and issues the unpublish and publish
subprocess calls anyway, where the claim requires it to skip and issue
none. -/
theorem publishRepo_never_skips :
    publishRepo [⟨"a", true, .parsed (some "a") (some "1.0.0")⟩]
      = [.unpub "a" "1.0.0", .pub "a"] ∧
    NpmCmd.unpub "a" "1.0.0"
      ∈ publishRepo [⟨"a", true, .parsed (some "a") (some "1.0.0")⟩] ∧
    NpmCmd.pub "a"
      ∈ publishRepo [⟨"a", true, .parsed (some "a") (some "1.0.0")⟩] := by
  refine ⟨?_, ?_, ?_⟩ <;> decide

/-- Claim C1 (amended): the publisher has no force mode and never queries
the registry; for every qualifying immediate subdirectory whose manifest
parses with both a name and a version it issues the unpublish subprocess
call for that exact name at that version and the publish subprocess call,
and for a qualifying subdirectory with an unreadable manifest it still
issues the publish call — it never skips a package as already
published. -/
theorem publishRepo_unconditional (ds : List SubDir) (d : SubDir)
    (hmem : d ∈ ds) (hq : qualifies d = true) :
    (∀ n v, d.manifest = .parsed (some n) (some v) →
      NpmCmd.unpub n v ∈ publishRepo ds ∧ NpmCmd.pub d.entryName ∈ publishRepo ds) ∧
    (d.manifest = .malformed → NpmCmd.pub d.entryName ∈ publishRepo ds) := by
  have hsub : ∀ c, c ∈ publishStep d → c ∈ publishRepo ds := by
    intro c hc
    rw [publishRepo, List.mem_flatten]
    exact ⟨publishStep d, List.mem_map_of_mem publishStep hmem, hc⟩
  constructor
  · intro n v hman
    constructor
    · exact hsub _ (by simp [publishStep, hq, hman])
    · exact hsub _ (by simp [publishStep, hq, hman])
  · intro hman
    exact hsub _ (by simp [publishStep, hq, hman])

theorem publishRepo_unconditional_witness :
    NpmCmd.unpub "b" "2.0.0"
        ∈ publishRepo [⟨"b", true, .parsed (some "b") (some "2.0.0")⟩] ∧
    NpmCmd.pub "b"
        ∈ publishRepo [⟨"b", true, .parsed (some "b") (some "2.0.0")⟩] :=
  (publishRepo_unconditional [⟨"b", true, .parsed (some "b") (some "2.0.0")⟩]
      ⟨"b", true, .parsed (some "b") (some "2.0.0")⟩
      (by decide) (by decide)).1 "b" "2.0.0" rfl

/-! ## Static file server request handler
(start-verdaccio.js lines 268-319, and the identical inlined handler of
cli.js lines 425-467)

Paths are modelled as strings with `/` as separator; `pathJoin` embeds
the joining-plus-normalisation the source gets from `path.join` (empty
and dot segments dropped, dot-dot popping the previous segment, rooted at
the filesystem root).  Filesystem observations of the handler (stat,
read) are recorded as a trace; the claim is that the traversal check
rejects before any of them happens. -/

/-- Splits a path string at `/` separators. -/
def splitSegs (s : String) : List String :=
  let step := fun (acc : List String × String) (c : Char) =>
    if c = '/' then (acc.1 ++ [acc.2], "") else (acc.1, acc.2.push c)
  let r := s.data.foldl step ([], "")
  r.1 ++ [r.2]

/-- Normalises a segment list: empty and `.` segments vanish, `..` pops
the previous segment (staying at the root when there is none). -/
def normalizeSegs (segs : List String) : List String :=
  segs.foldl
    (fun acc seg =>
      if seg = "" ∨ seg = "." then acc
      else if seg = ".." then acc.dropLast
      else acc ++ [seg])
    []

/-- `path.join(base, p)` for an absolute `base`: concatenate with a
separator and normalise. -/
def pathJoin (base p : String) : String :=
  "/" ++ String.intercalate "/" (normalizeSegs (splitSegs (base ++ "/" ++ p)))

/-- A filesystem observation made by the request handler. -/
inductive FsOp where
  | stat (p : String)
  | readFile (p : String)
deriving DecidableEq, Repr

/-- What `fs.stat` can report for a path: absent/error, a non-file, or a
file with contents readable afterwards. -/
inductive StatResult where
  | errOrMissing
  | notFile
  | fileWith (contents : String)
deriving DecidableEq, Repr

/-- Environment of the static server: the public directory path and the
filesystem it serves. -/
structure ServerEnv where
  publicDir : String
  files : String → StatResult

/-- An HTTP response of the static server. -/
structure HttpResponse where
  status : Nat
  body : String
deriving DecidableEq, Repr

/-- The request handler: reject non-GET with 405; map `/` to
`/index.html`; join the decoded pathname onto the public directory;
answer 403 Forbidden when the joined path does not start with the public
directory prefix, without touching the filesystem; otherwise stat the
file and serve it (404 when absent or not a regular file). -/
def handleStatic (env : ServerEnv) (method : String) (decodedPathname : String) :
    HttpResponse × List FsOp :=
  if method ≠ "GET" then (⟨405, "Method Not Allowed"⟩, [])
  else
    let pathname := if decodedPathname = "/" then "/index.html" else decodedPathname
    let filePath := pathJoin env.publicDir pathname
    if strStartsWith filePath env.publicDir = false then
      (⟨403, "Forbidden"⟩, [])
    else
      match env.files filePath with
      | .errOrMissing => (⟨404, "Not Found"⟩, [.stat filePath])
      | .notFile => (⟨404, "Not Found"⟩, [.stat filePath])
      | .fileWith contents =>
        (⟨200, contents⟩, [.stat filePath, .readFile filePath])

/-- Claim C9: when joining the decoded pathname (after the `/` to
`/index.html` substitution) onto the public directory yields a path that
does not start with the public directory prefix, the GET handler answers
403 Forbidden and performs no stat and no read. -/
theorem handleStatic_rejects_traversal (env : ServerEnv) (p : String)
    (h : strStartsWith
        (pathJoin env.publicDir (if p = "/" then "/index.html" else p))
        env.publicDir = false) :
    handleStatic env "GET" p = (⟨403, "Forbidden"⟩, []) := by
  rw [handleStatic]
  rw [if_neg (by simp)]
  simp only [h]
  simp

/-- Server environment for the C9 witness: everything under `/srv/public`
exists as a file. -/
def witnessServerEnv : ServerEnv :=
  ⟨"/srv/public", fun _ => .fileWith "data"⟩

theorem handleStatic_rejects_traversal_witness :
    handleStatic witnessServerEnv "GET" "/../etc/passwd"
      = (⟨403, "Forbidden"⟩, []) :=
  handleStatic_rejects_traversal witnessServerEnv "/../etc/passwd" (by decide)

/-! ## Resource syncer

Modelled from the spec: no Resource Syncer exists under src/ — no
function of cli.js or start-verdaccio.js fetches a sync manifest or
downloads per-file assets into a destination tree.  The definitions below
follow section 4.6 of the specification: fetch the manifest (a bare list
of relative keys, an object wrapping a files list, or some other shape),
fail with the distinguished not-found and format errors, and otherwise
walk the keys once each, skipping a key whose destination exists unless
forced, and otherwise downloading it (counting a failed download). -/

/-- Modelled from the spec: the shape of a fetched sync manifest. -/
inductive SyncManifest where
  | bare (keys : List String)
  | wrapped (keys : List String)
  | other
deriving DecidableEq, Repr

/-- Modelled from the spec: manifest parsing, accepting the two list
shapes and failing with the format error on any other shape. -/
def parseManifest : SyncManifest → Except String (List String)
  | .bare ks => .ok ks
  | .wrapped ks => .ok ks
  | .other => .error "ManifestFormatError"

/-- How the syncer settled one listed key. -/
inductive SyncAction where
  | downloaded
  | skipped
  | failed
deriving DecidableEq, Repr

/-- Modelled from the spec: environment of one sync run — whether the
manifest fetch found the manifest, the manifest shape, which destination
paths already exist, and which downloads succeed. -/
structure SyncEnv where
  manifestFound : Bool
  manifest : SyncManifest
  existsAtDest : String → Bool
  downloadOk : String → Bool

/-- Result of `sync`: the two aborting errors, or the per-key visit
trace. -/
inductive SyncResult where
  | notFound
  | badFormat
  | done (visits : List (String × SyncAction))

/-- Modelled from the spec: settle one key — skip when the destination
exists and force is off, otherwise download (or count the failure). -/
def syncKey (env : SyncEnv) (force : Bool) (key : String) : SyncAction :=
  if env.existsAtDest key && !force then .skipped
  else if env.downloadOk key then .downloaded
  else .failed

/-- Modelled from the spec: `sync(manifestURL, destRoot, force)` — abort
with the not-found error when the manifest fetch misses, abort with the
format error on an unrecognised shape, and otherwise visit the listed
keys in order, producing one action per key. -/
def sync (env : SyncEnv) (force : Bool) : SyncResult :=
  if env.manifestFound = false then .notFound
  else
    match parseManifest env.manifest with
    | .error _ => .badFormat
    | .ok keys => .done (keys.map (fun k => (k, syncKey env force k)))

/-- Claim C8: for a manifest that is a bare list of keys or an object
wrapping a files list, `sync` visits each listed key exactly once — the
visit trace projects back to exactly the listed keys, in order, each
settled as downloaded, skipped or failed. -/
theorem sync_visits_each_key_once (env : SyncEnv) (force : Bool) (keys : List String)
    (hfound : env.manifestFound = true)
    (hshape : env.manifest = .bare keys ∨ env.manifest = .wrapped keys) :
    ∃ visits, sync env force = .done visits ∧
      visits.map Prod.fst = keys ∧ visits.length = keys.length := by
  refine ⟨keys.map (fun k => (k, syncKey env force k)), ?_, ?_, by simp⟩
  · cases hshape with
    | inl h => simp [sync, hfound, h, parseManifest]
    | inr h => simp [sync, hfound, h, parseManifest]
  · rw [List.map_map]
    exact List.map_id keys

/-- Sync environment for the C8 witness: a wrapped manifest listing two
keys, one already present at the destination. -/
def witnessSyncEnv : SyncEnv :=
  ⟨true, .wrapped ["a/x.json", "b/y.bin"], fun k => k == "a/x.json", fun _ => true⟩

theorem sync_visits_each_key_once_witness :
    ∃ visits, sync witnessSyncEnv false = .done visits ∧
      visits.map Prod.fst = ["a/x.json", "b/y.bin"] ∧
      visits.length = (["a/x.json", "b/y.bin"] : List String).length :=
  sync_visits_each_key_once witnessSyncEnv false ["a/x.json", "b/y.bin"] rfl (Or.inr rfl)

end AilyOffline
